import Mathlib

/-!
Shallow embedding of the litemon resource-monitor core (Rust) and proofs about it.

Conventions of the embedding:
* Rust `u64`/`u32`/`usize` values are modelled as `ℕ`; `usize` saturating
  subtraction is `Nat` truncated subtraction.
* Finite IEEE `f32`/`f64` values are modelled as exact rationals `ℚ`
  (rounding error of float arithmetic is abstracted away); where a
  computation can produce a non-finite IEEE result (NaN, ±∞), the value is
  modelled by `FpVal`, which makes the NaN/∞ outcomes explicit instead of
  silently using Lean's `q / 0 = 0` convention.
* The OS metric provider (the `sysinfo` crate) is external to the
  repository: its per-interface, per-disk and per-core readings are inputs
  to the embedded collection functions, and wall-clock elapsed time is an
  explicit `interval` input.
* Fallible or panicking code paths return `Option`/`Except`.
-/

/-- Model of an IEEE floating-point result: a finite value (an exact rational,
float rounding abstracted away), NaN, or a signed infinity. -/
inductive FpVal where
  | fin (q : ℚ)
  | nan
  | inf
  | ninf
deriving DecidableEq

/-- IEEE division on `FpVal`: `0/0` is NaN, `x/0` for finite `x ≠ 0` is a
signed infinity, finite by finite is exact rational division. -/
def FpVal.div : FpVal → FpVal → FpVal
  | .nan, _ => .nan
  | .fin a, .fin b =>
      if b = 0 then
        if a = 0 then .nan else if 0 < a then .inf else .ninf
      else .fin (a / b)
  | .fin _, .nan => .nan
  | .fin _, .inf => .fin 0
  | .fin _, .ninf => .fin 0
  | .inf, .nan => .nan
  | .inf, .fin b => if 0 ≤ b then .inf else .ninf
  | .inf, .inf => .nan
  | .inf, .ninf => .nan
  | .ninf, .nan => .nan
  | .ninf, .fin b => if 0 ≤ b then .ninf else .inf
  | .ninf, .inf => .nan
  | .ninf, .ninf => .nan

/-- IEEE multiplication on `FpVal`: NaN propagates, `0 * ∞` is NaN. -/
def FpVal.mul : FpVal → FpVal → FpVal
  | .nan, _ => .nan
  | .fin a, .fin b => .fin (a * b)
  | .fin a, .inf => if a = 0 then .nan else if 0 < a then .inf else .ninf
  | .fin a, .ninf => if a = 0 then .nan else if 0 < a then .ninf else .inf
  | .fin _, .nan => .nan
  | .inf, .nan => .nan
  | .inf, .fin b => if b = 0 then .nan else if 0 < b then .inf else .ninf
  | .inf, .inf => .inf
  | .inf, .ninf => .ninf
  | .ninf, .nan => .nan
  | .ninf, .fin b => if b = 0 then .nan else if 0 < b then .ninf else .inf
  | .ninf, .inf => .ninf
  | .ninf, .ninf => .inf

/-- Rust `as u64` applied to a non-negative finite `f64`: truncation toward
zero (for non-negative rationals, the floor), as in
`let received_bytes = ... as u64;` in `network.rs`. -/
def f64_as_u64 (q : ℚ) : ℕ := q.floor.toNat

/-! ## src/monitor/network.rs -/

/-- The `NetworkStats` struct of `network.rs`.  `received_bytes` and
`transmitted_bytes` hold the computed per-second rates (cast to `u64`);
`total_received`/`total_transmitted` hold the provider's cumulative
lifetime counters. -/
structure NetworkStats where
  interface_name : String
  received_bytes : ℕ
  total_received : ℕ
  transmitted_bytes : ℕ
  total_transmitted : ℕ
deriving DecidableEq

/-- One interface entry of the external provider snapshot
(`sys.networks()`): the values returned by `data.received()`,
`data.total_received()`, `data.transmitted()`, `data.total_transmitted()`. -/
structure IfaceData where
  name : String
  received : ℕ
  total_received : ℕ
  transmitted : ℕ
  total_transmitted : ℕ

namespace NetworkMonitor

/-- Embedding of `NetworkMonitor::calculate_speed`:
`if current >= previous { (current - previous) as f64 / interval } else { 0.0 }`. -/
def calculate_speed (current previous : ℕ) (interval : ℚ) : ℚ :=
  if previous ≤ current then ((current : ℚ) - (previous : ℚ)) / interval else 0

/-- The `previous_stats: HashMap<String, NetworkStats>` field, modelled as an
association list; lookup is `HashMap::get`. -/
def lookup (m : List (String × NetworkStats)) (k : String) : Option NetworkStats :=
  (m.find? (fun p => p.1 == k)).map (fun p => p.2)

/-- `HashMap::insert`: the new binding replaces any previous binding of the key. -/
def insert (m : List (String × NetworkStats)) (k : String) (v : NetworkStats) :
    List (String × NetworkStats) :=
  (k, v) :: m.filter (fun p => p.1 != k)

/-- The body of the per-interface loop of `NetworkMonitor::collect_stats`:
look up the previous `NetworkStats` stored under the interface name; the
reported rate is `calculate_speed(data.received(), prev.received_bytes,
interval) as u64` when a previous entry exists and `0` otherwise (same for
the transmitted direction). -/
def collectOne (interval : ℚ) (m : List (String × NetworkStats)) (d : IfaceData) :
    NetworkStats :=
  let previous := lookup m d.name
  let received_bytes : ℕ :=
    match previous with
    | some prev => f64_as_u64 (calculate_speed d.received prev.received_bytes interval)
    | none => 0
  let transmitted_bytes : ℕ :=
    match previous with
    | some prev => f64_as_u64 (calculate_speed d.transmitted prev.transmitted_bytes interval)
    | none => 0
  { interface_name := d.name
    received_bytes := received_bytes
    total_received := d.total_received
    transmitted_bytes := transmitted_bytes
    total_transmitted := d.total_transmitted }

/-- Embedding of `NetworkMonitor::collect_stats`: iterate over the provider
snapshot, compute each interface's stats from the stored previous entry,
push the result and store it back into `previous_stats` under the interface
name.  `interval` is the wall-clock time in seconds since the previous call
(external input).  Returns the collected list and the updated map. -/
def collect_stats (m : List (String × NetworkStats)) (interval : ℚ)
    (ifaces : List IfaceData) : List NetworkStats × List (String × NetworkStats) :=
  ifaces.foldl
    (fun (acc : List NetworkStats × List (String × NetworkStats)) d =>
      let stats := collectOne interval acc.2 d
      (acc.1 ++ [stats], insert acc.2 d.name stats))
    ([], m)

end NetworkMonitor

/-! ## src/monitor/cpu.rs -/

/-- The `CpuStats` struct of `cpu.rs`.  `total_usage` is an `f32` that can be
NaN (division by a zero core count), hence `FpVal`. -/
structure CpuStats where
  total_usage : FpVal
  core_usage : List ℚ
  core_count : ℕ
  frequency : List ℕ
deriving DecidableEq

namespace CpuMonitor

/-- Embedding of `CpuMonitor::collect_stats`.  The provider input is the list
`sys.cpus()`, one `(cpu_usage, frequency)` pair per core.  The code pushes
each core's usage and frequency and then sets
`total_usage = core_usage.iter().sum::<f32>() / core_count as f32`
with no guard on `core_count`. -/
def collect_stats (cpus : List (ℚ × ℕ)) : CpuStats :=
  let core_usage := cpus.map Prod.fst
  { total_usage := FpVal.div (.fin core_usage.sum) (.fin (cpus.length : ℚ))
    core_usage := core_usage
    core_count := cpus.length
    frequency := cpus.map Prod.snd }

end CpuMonitor

/-! ## src/monitor/disk.rs -/

/-- One disk entry of the external provider snapshot (`sys.disks()`). -/
structure DiskInput where
  name : String
  mount_point : String
  total_space : ℕ
  available_space : ℕ
  disk_type : String
  is_removable : Bool

/-- The `DiskStats` struct of `disk.rs`. -/
structure DiskStats where
  name : String
  mount_point : String
  total_space : ℕ
  available_space : ℕ
  used_space : ℕ
  disk_type : String
  is_removable : Bool
deriving DecidableEq

/-- Rust unchecked `u64` subtraction `a - b` under debug-build semantics:
defined (equal to the mathematical difference) when `b ≤ a`, and `none`
(overflow panic) when `b > a`.  (A release build would instead wrap modulo
`2^64`.) -/
def u64_sub (a b : ℕ) : Option ℕ := if b ≤ a then some (a - b) else none

namespace DiskMonitor

/-- The per-disk body of `DiskMonitor::collect_stats`:
`used_space: disk.total_space() - disk.available_space()` is the unchecked
`u64` subtraction. -/
def collectOne (d : DiskInput) : Option DiskStats :=
  (u64_sub d.total_space d.available_space).map fun used =>
    { name := d.name
      mount_point := d.mount_point
      total_space := d.total_space
      available_space := d.available_space
      used_space := used
      disk_type := d.disk_type
      is_removable := d.is_removable }

/-- Embedding of `DiskMonitor::collect_stats` over the provider's disk list;
`none` models the debug-build subtraction-overflow panic on any disk. -/
def collect_stats : List DiskInput → Option (List DiskStats)
  | [] => some []
  | d :: rest => do
      let s ← collectOne d
      let ss ← collect_stats rest
      pure (s :: ss)

/-- Embedding of `DiskMonitor::usage_percentage`:
`if total == 0 { 0.0 } else { (used as f64 / total as f64) * 100.0 }`.
The guarded division never produces a non-finite value, so plain `ℚ`
suffices. -/
def usage_percentage (total used : ℕ) : ℚ :=
  if total = 0 then 0 else ((used : ℚ) / (total : ℚ)) * 100

end DiskMonitor

/-! ## src/main.rs -/

/-- Embedding of the inline swap-percentage expression in `main.rs`
(line 48): `(mem_stats.swap_used as f64 / mem_stats.swap_total as f64) * 100.0`
— an unguarded IEEE division, so the result is an `FpVal`.  The memory
percentage on line 39 is the same expression applied to
`(used, total)`. -/
def main_swap_usage_percentage (swap_used swap_total : ℕ) : FpVal :=
  FpVal.mul (FpVal.div (.fin (swap_used : ℚ)) (.fin (swap_total : ℚ))) (.fin 100)

/-! ## src/monitor/memory.rs: format_bytes -/

/-- Round a rational to the nearest integer, ties to even — the rounding Rust's
`{:.2}` formatting applies to the (here exactly represented) value. -/
def roundHalfEven (q : ℚ) : ℤ :=
  let f := q.floor
  let frac := q - (f : ℚ)
  if frac < 1/2 then f
  else if (1 : ℚ)/2 < frac then f + 1
  else if f % 2 = 0 then f else f + 1

/-- Render a natural number below 100 as exactly two digits. -/
def twoDigits (n : ℕ) : String :=
  (if n < 10 then "0" else "") ++ Nat.repr n

/-- Rust `format!("{:.2}", q)` for a non-negative value: exactly two decimal
places, rounded half to even. -/
def formatFixed2 (q : ℚ) : String :=
  let c := (roundHalfEven (q * 100)).toNat
  Nat.repr (c / 100) ++ "." ++ twoDigits (c % 100)

namespace MemoryMonitor

/-- Embedding of `MemoryMonitor::format_bytes`: thresholds `KB/MB/GB` are
1024-based; values at or above a threshold are rendered with `{:.2}` and the
unit suffix, values below 1 KB with `{:.0}` (a whole `u64`, so no decimal
point) and ` B`. -/
def format_bytes (bytes : ℕ) : String :=
  let KB : ℚ := 1024
  let MB : ℚ := KB * 1024
  let GB : ℚ := MB * 1024
  let b : ℚ := (bytes : ℚ)
  if GB ≤ b then formatFixed2 (b / GB) ++ " GB"
  else if MB ≤ b then formatFixed2 (b / MB) ++ " MB"
  else if KB ≤ b then formatFixed2 (b / KB) ++ " KB"
  else Nat.repr bytes ++ " B"

end MemoryMonitor

/-- The four 1024-based units of the spec, as byte sizes: B, KB, MB, GB. -/
def specByteUnits : List ℕ := [1, 1024, 1048576, 1073741824]

/-- Following the spec's words: the largest 1024-based unit whose value is at
least 1, i.e. the largest unit `u` with `u ≤ b`; when none qualifies
(`b = 0`) fall back to bytes. -/
def specLargestUnit (b : ℕ) : ℕ :=
  ((specByteUnits.filter (fun u => decide (u ≤ b))).max?).getD 1

/-- Suffix of a unit's byte size. -/
def specUnitSuffix (u : ℕ) : String :=
  if u = 1073741824 then " GB"
  else if u = 1048576 then " MB"
  else if u = 1024 then " KB"
  else " B"

/-- Following the spec's words: render `b` in the largest unit whose value is
`≥ 1` with two decimal places, except whole-byte values, which are rendered
without decimals. -/
def spec_format_bytes (b : ℕ) : String :=
  let u := specLargestUnit b
  if u = 1 then Nat.repr b ++ " B"
  else formatFixed2 ((b : ℚ) / (u : ℚ)) ++ specUnitSuffix u

/-! ## src/ui/mod.rs: scrolling -/

/-- The key codes distinguished by `Tui::handle_scroll` (everything else
falls into the wildcard arm). -/
inductive KeyCode where
  | up
  | down
  | other
deriving DecidableEq

namespace Tui

/-- Embedding of `Tui::handle_scroll`: `Up` decrements `cpu_scroll` when it is
positive; `Down` increments it when it is below `max_cores.saturating_sub(10)`
(Nat subtraction is saturating); other keys leave it unchanged. -/
def handle_scroll (cpu_scroll : ℕ) (key : KeyCode) (max_cores : ℕ) : ℕ :=
  match key with
  | .up => if 0 < cpu_scroll then cpu_scroll - 1 else cpu_scroll
  | .down => if cpu_scroll < max_cores - 10 then cpu_scroll + 1 else cpu_scroll
  | .other => cpu_scroll

/-- Apply a sequence of key events to the scroll state. -/
def handle_scroll_all (cpu_scroll : ℕ) (keys : List KeyCode) (max_cores : ℕ) : ℕ :=
  keys.foldl (fun s k => handle_scroll s k max_cores) cpu_scroll

end Tui

/-! ## HistoryBuffer (spec §3 HistorySeries, §4.2) -/

/-- Modelled from the spec: the repository's `src/` contains no HistoryBuffer
implementation (no ring/history buffer appears in any source file), so the
push/eviction rule is taken from the spec's words: when length would exceed
capacity, remove the oldest element before appending the new one — strict
FIFO, no aggregation. -/
def series_push (capacity : ℕ) (s : List ℚ) (v : ℚ) : List ℚ :=
  if capacity < s.length + 1 then s.drop 1 ++ [v] else s ++ [v]

/-- Modelled from the spec: a HistoryBuffer keeps one bounded series per key,
all with the same fixed capacity. -/
structure HistoryBuffer where
  capacity : ℕ
  series_map : List (String × List ℚ)

/-- Modelled from the spec: a freshly created HistoryBuffer has no series. -/
def HistoryBuffer.new (capacity : ℕ) : HistoryBuffer := ⟨capacity, []⟩

/-- Modelled from the spec: `series(key)` returns the current ordered contents
(oldest to newest) of the series under `key`, empty when unseen. -/
def HistoryBuffer.series (hb : HistoryBuffer) (key : String) : List ℚ :=
  ((hb.series_map.find? (fun p => p.1 == key)).map (fun p => p.2)).getD []

/-- Modelled from the spec: `push(key, value)` appends a sample to the series
under `key`, creating the series if unseen, evicting the oldest element when
full. -/
def HistoryBuffer.push (hb : HistoryBuffer) (key : String) (v : ℚ) : HistoryBuffer :=
  ⟨hb.capacity,
    (key, series_push hb.capacity (hb.series key) v) ::
      hb.series_map.filter (fun p => p.1 != key)⟩

/-- Push a list of samples, in order, to one key. -/
def HistoryBuffer.pushAll (hb : HistoryBuffer) (key : String) (vs : List ℚ) : HistoryBuffer :=
  vs.foldl (fun b v => b.push key v) hb

/-! ## src/monitor/mod.rs: GPU caching in Monitor -/

/-- The `GpuStats` struct of `gpu.rs`. -/
structure GpuStats where
  name : String
  utilization : ℕ
  memory_used : ℕ
  memory_total : ℕ
  temperature : ℕ
deriving DecidableEq

/-- The `LiteMonError` enum of `error.rs` (payloads of the `Io` and `Gpu`
variants are irrelevant to the claims and omitted). -/
inductive LiteMonError where
  | Io
  | NoGpuFound
  | Gpu
deriving DecidableEq

/-- The GPU-relevant state of the `Monitor` struct of `monitor/mod.rs`:
`gpu_monitor` records whether `GpuMonitor::new().ok()` succeeded at
construction (`Option<GpuMonitor>` being `Some`), and `cached_gpu_stats`
is the cached collection result.  The CPU/memory/disk/network sub-monitors
are embedded separately above. -/
structure Monitor where
  gpu_monitor : Bool
  cached_gpu_stats : Option GpuStats
deriving DecidableEq

/-- Embedding of `Monitor::new`: `cached_gpu_stats` starts as `None`;
`gpu_init_ok` tells whether GPU detection (`GpuMonitor::new()`) succeeded. -/
def Monitor.new (gpu_init_ok : Bool) : Monitor := ⟨gpu_init_ok, none⟩

/-- Embedding of the GPU part of `Monitor::refresh`: only when a GPU monitor
exists and at least one second elapsed since `last_gpu_update` is
`cached_gpu_stats` overwritten with `gpu.collect_stats().ok()` — the external
collection outcome (`none` on failure).  Both the elapsed-time condition and
the collection outcome are external inputs. -/
def Monitor.refresh (m : Monitor) (elapsed_ge_one_sec : Bool)
    (collect_result : Option GpuStats) : Monitor :=
  if m.gpu_monitor && elapsed_ge_one_sec then
    { m with cached_gpu_stats := collect_result }
  else m

/-- Embedding of `Monitor::gpu_stats`: `Ok` of the cached stats when present,
otherwise `Err(LiteMonError::NoGpuFound)`. -/
def Monitor.gpu_stats (m : Monitor) : Except LiteMonError GpuStats :=
  match m.cached_gpu_stats with
  | some stats => .ok stats
  | none => .error .NoGpuFound

/-- Apply a sequence of `refresh` calls; each event carries the external
elapsed-time condition and GPU collection outcome of that call. -/
def Monitor.refreshAll (m : Monitor) (events : List (Bool × Option GpuStats)) : Monitor :=
  events.foldl (fun s e => Monitor.refresh s e.1 e.2) m

/-! ## Helper lemmas -/

theorem handle_scroll_le (s : ℕ) (k : KeyCode) (m : ℕ) (h : s ≤ m - 10) :
    Tui.handle_scroll s k m ≤ m - 10 := by
  cases k <;> unfold Tui.handle_scroll <;> dsimp only <;> (try split_ifs) <;> omega

theorem refreshAll_no_gpu (events : List (Bool × Option GpuStats)) :
    ∀ m : Monitor, m.gpu_monitor = false → Monitor.refreshAll m events = m := by
  induction events with
  | nil => intro m _; rfl
  | cons e es ih =>
      intro m h
      show Monitor.refreshAll (Monitor.refresh m e.1 e.2) es = m
      have hm : Monitor.refresh m e.1 e.2 = m := by
        simp [Monitor.refresh, h]
      rw [hm]
      exact ih m h

theorem rate_u64_one (current previous : ℕ) :
    f64_as_u64 (NetworkMonitor.calculate_speed current previous 1) =
      if previous ≤ current then current - previous else 0 := by
  unfold NetworkMonitor.calculate_speed f64_as_u64
  split_ifs with h
  · rw [div_one, ← Nat.cast_sub h, Rat.floor_def', Rat.num_natCast, Rat.den_natCast]
    simp
  · norm_num [Rat.floor_def']

/-! ## Claim theorems -/

/-- C2: for all counter pairs `(prev, curr)` and every interval `t > 0`,
`NetworkMonitor::calculate_speed` returns `(curr − prev) / t` when
`curr ≥ prev`, returns exactly `0` when `curr < prev` (simulated counter
reset), and its result is never negative. -/
theorem c2_calculate_speed_spec (prev curr : ℕ) (t : ℚ) (ht : 0 < t) :
    (prev ≤ curr →
      NetworkMonitor.calculate_speed curr prev t = ((curr : ℚ) - (prev : ℚ)) / t) ∧
    (curr < prev → NetworkMonitor.calculate_speed curr prev t = 0) ∧
    0 ≤ NetworkMonitor.calculate_speed curr prev t := by
  unfold NetworkMonitor.calculate_speed
  refine ⟨fun h => if_pos h, fun h => if_neg (by omega), ?_⟩
  split_ifs with h
  · apply div_nonneg _ ht.le
    have hq : (prev : ℚ) ≤ (curr : ℚ) := by exact_mod_cast h
    linarith
  · exact le_refl 0

/-- Witness for C2 at `prev = 1000`, `curr = 3000`, `t = 2`. -/
theorem c2_calculate_speed_spec_witness :
    (1000 ≤ 3000 →
      NetworkMonitor.calculate_speed 3000 1000 2 = ((3000 : ℚ) - (1000 : ℚ)) / 2) ∧
    (3000 < 1000 → NetworkMonitor.calculate_speed 3000 1000 2 = 0) ∧
    0 ≤ NetworkMonitor.calculate_speed 3000 1000 2 :=
  c2_calculate_speed_spec 1000 3000 2 (by norm_num)

/-- C5: starting from any in-range offset, every sequence of scroll key
events keeps `cpu_scroll` within `[0, max(0, max_cores − 10)]` (the lower
bound holds because the offset is a `usize`/`ℕ`, the upper bound is the
handler's clamp `max_cores.saturating_sub(10)`, `10` being the page size in
effect in `handle_scroll`); scrolling up at `0` and scrolling down at or
above the maximum leave the offset unchanged. -/
theorem c5_scroll_offset_clamped (keys : List KeyCode) (max_cores s₀ : ℕ)
    (h : s₀ ≤ max_cores - 10) :
    Tui.handle_scroll_all s₀ keys max_cores ≤ max_cores - 10 ∧
    Tui.handle_scroll 0 KeyCode.up max_cores = 0 ∧
    (∀ s, max_cores - 10 ≤ s → Tui.handle_scroll s KeyCode.down max_cores = s) := by
  refine ⟨?_, rfl, fun s hs => ?_⟩
  · induction keys generalizing s₀ with
    | nil => exact h
    | cons k ks ih =>
        show Tui.handle_scroll_all (Tui.handle_scroll s₀ k max_cores) ks max_cores ≤ _
        exact ih _ (handle_scroll_le s₀ k max_cores h)
  · unfold Tui.handle_scroll
    dsimp only
    rw [if_neg (by omega)]

/-- Witness for C5: three consecutive down-scrolls from offset `0` with
`max_cores = 12`. -/
theorem c5_scroll_offset_clamped_witness :
    Tui.handle_scroll_all 0 [KeyCode.down, KeyCode.down, KeyCode.down] 12 ≤ 12 - 10 ∧
    Tui.handle_scroll 0 KeyCode.up 12 = 0 ∧
    (∀ s, 12 - 10 ≤ s → Tui.handle_scroll s KeyCode.down 12 = s) :=
  c5_scroll_offset_clamped [KeyCode.down, KeyCode.down, KeyCode.down] 12 0 (by omega)

/-- C7: when GPU detection fails at construction (`Monitor::new` with
`GpuMonitor::new().ok() = None`), `gpu_stats()` returns
`Err(LiteMonError::NoGpuFound)` after every sequence of `refresh()` calls,
whatever the external elapsed-time conditions and collection outcomes were. -/
theorem c7_no_gpu_always_error (events : List (Bool × Option GpuStats)) :
    ((Monitor.new false).refreshAll events).gpu_stats =
      Except.error LiteMonError.NoGpuFound := by
  rw [refreshAll_no_gpu events (Monitor.new false) rfl]
  rfl

/-- C10: with a GPU monitor present, a failed GPU collection during a
`refresh()` whose one-second condition holds overwrites the cache with
`None`, so the next `gpu_stats()` returns `Err(NoGpuFound)` — even when a
previously successful value `prior` was cached, it is not retained. -/
theorem c10_gpu_failure_overwrites_cache (prior : Option GpuStats) :
    ((Monitor.mk true prior).refresh true none).cached_gpu_stats = none ∧
    ((Monitor.mk true prior).refresh true none).gpu_stats =
      Except.error LiteMonError.NoGpuFound := by
  exact ⟨rfl, rfl⟩

theorem collectOne_of_le (d : DiskInput) (h : d.available_space ≤ d.total_space) :
    DiskMonitor.collectOne d =
      some
        { name := d.name
          mount_point := d.mount_point
          total_space := d.total_space
          available_space := d.available_space
          used_space := d.total_space - d.available_space
          disk_type := d.disk_type
          is_removable := d.is_removable } := by
  simp [DiskMonitor.collectOne, u64_sub, h]

theorem collectOne_of_lt (d : DiskInput) (h : d.total_space < d.available_space) :
    DiskMonitor.collectOne d = none := by
  simp [DiskMonitor.collectOne, u64_sub]
  omega

/-- C3 counterexample: on a provider snapshot with zero CPU cores, the code
divides the (empty) usage sum by `0 as f32`, so `total_usage` is IEEE NaN
(`0.0/0.0`) and not `0.0` as the claim states. -/
theorem c3_zero_core_count_counterexample :
    (CpuMonitor.collect_stats []).core_count = 0 ∧
    (CpuMonitor.collect_stats []).total_usage = FpVal.nan ∧
    (CpuMonitor.collect_stats []).total_usage ≠ FpVal.fin 0 := by
  refine ⟨rfl, rfl, by decide⟩

/-- C3 amended: for every snapshot with at least one core, `total_usage`
equals the arithmetic mean of the per-core usage percentages; when the core
count is `0`, `total_usage` is the NaN result of the unguarded division
`0.0 / 0.0`, not `0.0`. -/
theorem c3_cpu_total_usage_amended (cpus : List (ℚ × ℕ)) :
    (cpus ≠ [] →
      (CpuMonitor.collect_stats cpus).total_usage =
        FpVal.fin ((cpus.map Prod.fst).sum / (cpus.length : ℚ))) ∧
    (cpus = [] → (CpuMonitor.collect_stats cpus).total_usage = FpVal.nan) := by
  constructor
  · intro h
    have hlen : cpus.length ≠ 0 := fun hl => h (List.length_eq_zero.mp hl)
    have hne : (cpus.length : ℚ) ≠ 0 := Nat.cast_ne_zero.mpr hlen
    simp [CpuMonitor.collect_stats, FpVal.div, hne]
  · intro h
    subst h
    rfl

/-- Witness for C3 (amended) at a two-core snapshot with usages 50% and 70%. -/
theorem c3_cpu_total_usage_amended_witness :
    (CpuMonitor.collect_stats [((50 : ℚ), 1000), ((70 : ℚ), 2000)]).total_usage =
      FpVal.fin
        ((([((50 : ℚ), 1000), ((70 : ℚ), 2000)].map Prod.fst).sum) /
          (([((50 : ℚ), 1000), ((70 : ℚ), 2000)].length : ℚ)) ) :=
  (c3_cpu_total_usage_amended [((50 : ℚ), 1000), ((70 : ℚ), 2000)]).1
    (List.cons_ne_nil _ _)

/-- C4 counterexample: the swap percentage printed by `main.rs` is the
unguarded expression `(swap_used as f64 / swap_total as f64) * 100.0`; on a
host without swap (`swap_used = swap_total = 0`) it evaluates to IEEE NaN,
not `0.0` — so the claim that the usage-percentage computation used for the
memory and swap percentages returns `0.0` when `total == 0` is false. -/
theorem c4_swap_percentage_counterexample :
    main_swap_usage_percentage 0 0 = FpVal.nan ∧ FpVal.nan ≠ FpVal.fin 0 := by
  refine ⟨rfl, by decide⟩

/-- C4 amended: `DiskMonitor::usage_percentage` returns `0.0` when
`total == 0` (no division-by-zero fault) and `(used / total) * 100` when
`total > 0`; it is used for the disk percentage only — the memory and swap
percentages in `main.rs` are computed inline without the guard. -/
theorem c4_usage_percentage_amended (total used : ℕ) :
    (total = 0 → DiskMonitor.usage_percentage total used = 0) ∧
    (0 < total →
      DiskMonitor.usage_percentage total used = ((used : ℚ) / (total : ℚ)) * 100) := by
  constructor
  · intro h
    simp [DiskMonitor.usage_percentage, h]
  · intro h
    unfold DiskMonitor.usage_percentage
    rw [if_neg (by omega)]

/-- Witness for C4 (amended) at `(total, used) = (0, 7)` and `(4, 1)`. -/
theorem c4_usage_percentage_amended_witness :
    DiskMonitor.usage_percentage 0 7 = 0 ∧
    DiskMonitor.usage_percentage 4 1 = ((1 : ℚ) / (4 : ℚ)) * 100 :=
  ⟨(c4_usage_percentage_amended 0 7).1 rfl, (c4_usage_percentage_amended 4 1).2 (by omega)⟩

/-- C9: `DiskMonitor::collect_stats` computes `used_space` by the unchecked
`u64` subtraction `total_space - available_space`: when every disk of the
snapshot reports `available_space ≤ total_space` this equals the intended
used space, and when some disk reports `available_space > total_space` the
subtraction underflows (debug-build panic, modelled as `none`) instead of
being tolerated. -/
theorem c9_disk_used_space_sub (disks : List DiskInput) :
    ((∀ d ∈ disks, d.available_space ≤ d.total_space) →
      DiskMonitor.collect_stats disks =
        some (disks.map fun d =>
          { name := d.name
            mount_point := d.mount_point
            total_space := d.total_space
            available_space := d.available_space
            used_space := d.total_space - d.available_space
            disk_type := d.disk_type
            is_removable := d.is_removable })) ∧
    (∀ d ∈ disks, d.total_space < d.available_space →
      DiskMonitor.collect_stats disks = none) := by
  constructor
  · induction disks with
    | nil => intro _; rfl
    | cons a l ih =>
        intro hall
        have ha : a.available_space ≤ a.total_space := hall a (List.mem_cons_self a l)
        have hrest := ih fun d hd => hall d (List.mem_cons_of_mem a hd)
        simp [DiskMonitor.collect_stats, collectOne_of_le a ha, hrest]
  · intro d hd hlt
    induction disks with
    | nil => simp at hd
    | cons a l ih =>
        rcases List.mem_cons.mp hd with h | h
        · subst h
          simp [DiskMonitor.collect_stats, collectOne_of_lt d hlt]
        · have hl := ih h
          cases hca : DiskMonitor.collectOne a <;>
            simp [DiskMonitor.collect_stats, hca, hl]

/-- Witness for C9: a disk with `available ≤ total` yields `used = 60`; a
disk reporting `available > total` hits the underflow. -/
theorem c9_disk_used_space_sub_witness :
    DiskMonitor.collect_stats [⟨"sda", "/", 100, 40, "SSD", false⟩] =
      some [⟨"sda", "/", 100, 40, 60, "SSD", false⟩] ∧
    DiskMonitor.collect_stats [⟨"sdb", "/data", 100, 120, "HDD", true⟩] = none := by
  constructor
  · have h := (c9_disk_used_space_sub [⟨"sda", "/", 100, 40, "SSD", false⟩]).1
      (by intro d hd; simp at hd; subst hd; decide)
    simpa using h
  · exact (c9_disk_used_space_sub [⟨"sdb", "/data", 100, 120, "HDD", true⟩]).2
      ⟨"sdb", "/data", 100, 120, "HDD", true⟩ (by simp) (by decide)

/-- C1: evaluation of the embedded `NetworkMonitor::collect_stats` on the
claim's scenario, refuting the claimed rates.  The code stores each tick's
computed rate (not the cumulative counter) in `previous_stats` and passes it
to `calculate_speed` as `previous`, so the reported rate is not
`(current cumulative − previously stored cumulative) / elapsed`.  Read with
the provider's `received()`/`transmitted()` equal to the cumulative counters
(first conjunct), the second tick reports `(3000, 500)` instead of the
claimed `(2000, 0)`; read with `received()` as sysinfo's delta since the
last refresh (second conjunct), the second tick happens to report `2000` but
a third tick with the same traffic level (cumulative `5000`, delta `2000`)
reports `0` instead of `2000`. -/
theorem c1_network_rate_scenario_eval :
    (let t1 := NetworkMonitor.collect_stats [] 1 [⟨"eth0", 1000, 1000, 500, 500⟩]
     let t2 := NetworkMonitor.collect_stats t1.2 1 [⟨"eth0", 3000, 3000, 500, 500⟩]
     t1.1.map (fun s => (s.received_bytes, s.transmitted_bytes)) = [(0, 0)] ∧
     t2.1.map (fun s => (s.received_bytes, s.transmitted_bytes)) = [(3000, 500)] ∧
     ((3000 : ℕ), (500 : ℕ)) ≠ ((2000 : ℕ), (0 : ℕ))) ∧
    (let u1 := NetworkMonitor.collect_stats [] 1 [⟨"eth0", 1000, 1000, 500, 500⟩]
     let u2 := NetworkMonitor.collect_stats u1.2 1 [⟨"eth0", 2000, 3000, 0, 500⟩]
     let u3 := NetworkMonitor.collect_stats u2.2 1 [⟨"eth0", 2000, 5000, 0, 500⟩]
     u2.1.map (fun s => s.received_bytes) = [2000] ∧
     u3.1.map (fun s => s.received_bytes) = [0] ∧ (0 : ℕ) ≠ 2000) := by
  refine ⟨⟨?_, ?_, by decide⟩, ⟨?_, ?_, by decide⟩⟩
  all_goals
    simp only [NetworkMonitor.collect_stats, NetworkMonitor.collectOne,
      NetworkMonitor.lookup, NetworkMonitor.insert, rate_u64_one]
    decide

theorem drop_one_shift (s X : List ℚ) (h1 : 1 ≤ s.length) (n : ℕ) :
    (s ++ X).drop (n + 1) = (List.drop 1 s ++ X).drop n := by
  rw [show n + 1 = 1 + n from by omega, ← List.drop_drop]
  congr 1
  rw [List.drop_append_eq_append_drop, Nat.sub_eq_zero_of_le h1]
  rfl

theorem series_push_foldl (cap : ℕ) (hcap : 1 ≤ cap) :
    ∀ (vs s : List ℚ), s.length ≤ cap →
      vs.foldl (series_push cap) s = (s ++ vs).drop (s.length + vs.length - cap) := by
  intro vs
  induction vs with
  | nil =>
      intro s hs
      simp [Nat.sub_eq_zero_of_le hs]
  | cons v vs ih =>
      intro s hs
      show vs.foldl (series_push cap) (series_push cap s v) = _
      by_cases hfull : cap < s.length + 1
      · have hlen : s.length = cap := by omega
        have h1 : 1 ≤ s.length := by omega
        have hs' : (series_push cap s v).length ≤ cap := by
          simp only [series_push, if_pos hfull, List.length_append, List.length_drop,
            List.length_cons, List.length_nil]
          omega
        rw [ih (series_push cap s v) hs']
        simp only [series_push, if_pos hfull]
        have hA : (List.drop 1 s ++ [v]).length = cap := by
          simp only [List.length_append, List.length_drop, List.length_cons, List.length_nil]
          omega
        have hidx1 : (List.drop 1 s ++ [v]).length + vs.length - cap = vs.length := by
          rw [hA]
          omega
        have hidx2 : s.length + (v :: vs).length - cap = vs.length + 1 := by
          simp only [List.length_cons]
          omega
        rw [hidx1, hidx2, drop_one_shift s (v :: vs) h1 vs.length]
        congr 1
        simp
      · have hs' : (series_push cap s v).length ≤ cap := by
          simp only [series_push, if_neg hfull, List.length_append, List.length_cons,
            List.length_nil]
          omega
        rw [ih (series_push cap s v) hs']
        simp only [series_push, if_neg hfull]
        have e : (s ++ [v]) ++ vs = s ++ (v :: vs) := by simp
        rw [e]
        congr 1
        simp only [List.length_append, List.length_cons, List.length_nil]
        omega

theorem hb_push_series (hb : HistoryBuffer) (key : String) (v : ℚ) :
    (hb.push key v).series key = series_push hb.capacity (hb.series key) v ∧
    (hb.push key v).capacity = hb.capacity := by
  constructor
  · simp [HistoryBuffer.push, HistoryBuffer.series, List.find?]
  · rfl

theorem hb_pushAll_series (key : String) :
    ∀ (vs : List ℚ) (hb : HistoryBuffer),
      (hb.pushAll key vs).series key =
        vs.foldl (series_push hb.capacity) (hb.series key) ∧
      (hb.pushAll key vs).capacity = hb.capacity := by
  intro vs
  induction vs with
  | nil => intro hb; exact ⟨rfl, rfl⟩
  | cons v vs ih =>
      intro hb
      have h := ih (hb.push key v)
      have hp := hb_push_series hb key v
      constructor
      · show ((hb.push key v).pushAll key vs).series key = _
        rw [h.1, hp.2, hp.1, List.foldl_cons]
      · show ((hb.push key v).pushAll key vs).capacity = _
        rw [h.2, hp.2]

/-- C6: HistoryBuffer (modelled from the spec, absent from `src/`) is strict
bounded FIFO: pushing `capacity + k` samples (`k ≥ 1`, positive capacity)
into one series leaves the series at length `capacity`, its contents being
exactly the last `capacity` pushed values in order (`vs.drop k`). -/
theorem c6_history_buffer_fifo (cap k : ℕ) (key : String) (vs : List ℚ)
    (hcap : 1 ≤ cap) (hk : 1 ≤ k) (hlen : vs.length = cap + k) :
    (((HistoryBuffer.new cap).pushAll key vs).series key).length = cap ∧
    ((HistoryBuffer.new cap).pushAll key vs).series key = vs.drop k := by
  have h := (hb_pushAll_series key vs (HistoryBuffer.new cap)).1
  have hempty : (HistoryBuffer.new cap).series key = [] := rfl
  have hcap2 : (HistoryBuffer.new cap).capacity = cap := rfl
  rw [hempty, hcap2, series_push_foldl cap hcap vs [] (by simp)] at h
  simp only [List.nil_append, List.length_nil, Nat.zero_add] at h
  have hk' : vs.length - cap = k := by omega
  rw [hk'] at h
  refine ⟨?_, h⟩
  rw [h]
  simp only [List.length_drop]
  omega

/-- Witness for C6: capacity 2, three pushed samples, series ends as the last
two in order. -/
theorem c6_history_buffer_fifo_witness :
    (((HistoryBuffer.new 2).pushAll "net" [3, 4, 5]).series "net").length = 2 ∧
    ((HistoryBuffer.new 2).pushAll "net" [3, 4, 5]).series "net" =
      ([3, 4, 5] : List ℚ).drop 1 :=
  c6_history_buffer_fifo 2 1 "net" [3, 4, 5] (by omega) (by omega) rfl

theorem specLargestUnit_eq (b : ℕ) :
    specLargestUnit b =
      if 1073741824 ≤ b then 1073741824
      else if 1048576 ≤ b then 1048576
      else if 1024 ≤ b then 1024
      else 1 := by
  unfold specLargestUnit specByteUnits
  by_cases h30 : 1073741824 ≤ b
  · have h20 : 1048576 ≤ b := by omega
    have h10 : 1024 ≤ b := by omega
    have h1 : 1 ≤ b := by omega
    simp [List.filter, h30, h20, h10, h1]
  · by_cases h20 : 1048576 ≤ b
    · have h10 : 1024 ≤ b := by omega
      have h1 : 1 ≤ b := by omega
      simp [List.filter, h30, h20, h10, h1]
    · by_cases h10 : 1024 ≤ b
      · have h1 : 1 ≤ b := by omega
        simp [List.filter, h30, h20, h10, h1]
      · by_cases h1 : 1 ≤ b
        · simp [List.filter, h30, h20, h10, h1]
        · simp [List.filter, h30, h20, h10, h1]

/-- C8: `MemoryMonitor::format_bytes` agrees, for every `u64` byte count,
with the spec-side renderer that picks the largest 1024-based unit
(B/KB/MB/GB) whose value is at least 1 and renders it with exactly two
decimal places (`formatFixed2`), whole-byte values being rendered without
decimals; in particular `0 ↦ "0 B"`, `1536 ↦ "1.50 KB"` and
`1073741824 ↦ "1.00 GB"`. -/
theorem c8_format_bytes_spec :
    (∀ b : ℕ, MemoryMonitor.format_bytes b = spec_format_bytes b) ∧
    MemoryMonitor.format_bytes 0 = "0 B" ∧
    MemoryMonitor.format_bytes 1536 = "1.50 KB" ∧
    MemoryMonitor.format_bytes 1073741824 = "1.00 GB" := by
  refine ⟨fun b => ?_, ?_, ?_, ?_⟩
  · simp only [MemoryMonitor.format_bytes, spec_format_bytes, specLargestUnit_eq]
    have cGB : ((1024 : ℚ) * 1024 * 1024 ≤ (b : ℚ)) ↔ (1073741824 ≤ b) := by
      rw [show ((1024 : ℚ) * 1024 * 1024) = ((1073741824 : ℕ) : ℚ) from by norm_num,
        Nat.cast_le]
    have cMB : ((1024 : ℚ) * 1024 ≤ (b : ℚ)) ↔ (1048576 ≤ b) := by
      rw [show ((1024 : ℚ) * 1024) = ((1048576 : ℕ) : ℚ) from by norm_num, Nat.cast_le]
    have cKB : ((1024 : ℚ) ≤ (b : ℚ)) ↔ (1024 ≤ b) := by
      rw [show ((1024 : ℚ)) = ((1024 : ℕ) : ℚ) from by norm_num, Nat.cast_le]
    simp only [cGB, cMB, cKB]
    split_ifs <;>
      first
        | omega
        | norm_num [specUnitSuffix]
  · norm_num [MemoryMonitor.format_bytes]
    all_goals decide
  · norm_num [MemoryMonitor.format_bytes, formatFixed2, roundHalfEven, twoDigits,
      Rat.floor_def']
    all_goals decide
  · norm_num [MemoryMonitor.format_bytes, formatFixed2, roundHalfEven, twoDigits,
      Rat.floor_def']
    all_goals decide
